import Mathlib

/-!
Shallow embedding of the order-up order-management backend:
the in-memory order store (`storage/memory.go`) and the lifecycle
HTTP handlers (`api` package: `orderFetchMiddleware`, `getOrders`,
`postOrders`, `chargeOrder`, `cancelOrder`).

Go's `map[string]Order` is embedded as a list of orders keyed by their
`id` field (inserts append, lookups scan by id); machine `int64` values
are embedded as `Int` (no arithmetic in the core comes near the 64-bit
range); the external charge service (`innerChargeOrder`) is embedded as
an oracle function from its request arguments to success or an error
message, and every handler additionally returns the list of charge-service
calls it made so that claims about external side effects are statable.
A Go nil slice is embedded as `none : Option (List Order)` (it would
serialize as JSON `null`), a non-nil slice as `some`.
-/

deriving instance DecidableEq for Except

namespace OrderUp

/-- Order status, as in Go: an integer enumeration.
`Pending=0, Charged=1, Fulfilled=2, Cancelled=3`; `-1` is the
"all" query-filter sentinel. -/
abbrev OrderStatus := Int

def OrderStatusPending : OrderStatus := 0
def OrderStatusCharged : OrderStatus := 1
def OrderStatusFulfilled : OrderStatus := 2
def OrderStatusCancelled : OrderStatus := 3

/-- A single line item of an order (`storage.LineItem`). -/
structure LineItem where
  description : String
  priceCents : Int
  quantity : Int
deriving Repr, DecidableEq

/-- An order record (`storage.Order`). -/
structure Order where
  id : String
  customerEmail : String
  lineItems : List LineItem
  status : OrderStatus
deriving Repr, DecidableEq

/-- Modelled from the spec: the repository declares `Order.TotalCents`
outside the files at hand; the spec fixes it as the derived value
`sum(unitPriceCents x quantity)` over all line items. -/
def Order.TotalCents (o : Order) : Int :=
  (o.lineItems.map (fun li => li.priceCents * li.quantity)).sum

/-- The in-memory table of `storage.MemoryInstance`: Go's
`map[string]Order` embedded as a list of records keyed by their `id`
field (insertion appends; the id-uniqueness of map keys is maintained
by `insertOrder`'s existence check). -/
abbrev Store := List Order

/-- Lookup of the record stored under `id` (Go's `i.orders[id]`). -/
def Store.find (s : Store) (id : String) : Option Order :=
  s.find? (fun o => o.id = id)

/-- Errors surfaced by the storage layer: `ErrOrderNotFound`,
`ErrOrderExists`, and any other backend error carrying a message
(e.g. a database driver failure in the SQL-backed instance). -/
inductive StoreErr where
  | notFound
  | alreadyExists
  | other (msg : String)
deriving Repr, DecidableEq

/-- `MemoryInstance.GetOrder`: exact-match lookup, `ErrOrderNotFound`
when absent. -/
def getOrder (s : Store) (id : String) : Except StoreErr Order :=
  match s.find id with
  | some o => .ok o
  | none => .error .notFound

/-- Embeds a Go slice built by `append` into a nil-able slice: the
slice stays `nil` (here `none`) exactly when nothing was appended. -/
def goSlice (l : List Order) : Option (List Order) :=
  if l = [] then none else some l

/-- `MemoryInstance.GetOrders`: starts from a nil slice and appends
every order with `status == -1 || order.Status == status`. -/
def getOrders (s : Store) (status : OrderStatus) : Option (List Order) :=
  goSlice (s.filter (fun o => status == -1 || o.status == status))

/-- The status-overwriting record update of `MemoryInstance.SetOrderStatus`:
`order := i.orders[id]; order.Status = status; i.orders[id] = order`. -/
def updStatus (tid : String) (ns : OrderStatus) (o : Order) : Order :=
  if o.id = tid then { o with status := ns } else o

/-- `MemoryInstance.SetOrderStatus`: `ErrOrderNotFound` when `id` is
absent; otherwise overwrite the stored record's status field. -/
def setOrderStatus (s : Store) (id : String) (status : OrderStatus) :
    Except StoreErr Store :=
  match s.find id with
  | none => .error .notFound
  | some _ => .ok (s.map (updStatus id status))

/-- `MemoryInstance.InsertOrder`: if the incoming order's id is empty,
use a freshly generated identifier `gen` (the Go code draws 16 random
bytes and hex-encodes them; the generated string is passed in here as a
parameter); fail with `ErrOrderExists` if the (possibly generated) id is
already present; otherwise store the record under its id. -/
def insertOrder (gen : String) (s : Store) (o : Order) :
    Except StoreErr (String × Store) :=
  let o := if o.id = "" then { o with id := gen } else o
  match s.find o.id with
  | some _ => .error .alreadyExists
  | none => .ok (o.id, s ++ [o])

/-! ### API layer (the `api` package) -/

/-- An error response produced by `instance.handleError`: HTTP status,
stable error code, and a human-readable message. -/
structure ApiError where
  status : Nat
  code : String
  message : String
deriving Repr, DecidableEq

def ErrCodeOrderNotFound : String := "order_not_found"
def ErrCodeOrderExists : String := "order_already_exists"
def ErrCodeInvalidEmail : String := "invalid_email"
def ErrCodeInvalidLineItems : String := "invalid_line_items"
def ErrCodeInvalidTotal : String := "invalid_total"
def ErrCodeInvalidStatus : String := "invalid_status"
def ErrCodeOrderNotEligible : String := "order_not_eligible"
def ErrCodeInternalError : String := "internal_error"
def ErrCodeChargeServiceError : String := "charge_service_error"

/-- The body POSTed to the charge service by `innerChargeOrder`
(`chargeServiceChargeArgs`). -/
structure chargeServiceChargeArgs where
  cardToken : String
  amountCents : Int
deriving Repr, DecidableEq

/-- The charge-service oracle: the outcome of one `innerChargeOrder`
call for given arguments — success, or the error message the handler
receives (transport error or non-201 response body). -/
abbrev ChargeSvc := chargeServiceChargeArgs → Except String Unit

/-- The `mocks.StorageInstance` interface as consumed by the handlers:
a state type plus the storage operations, each returning either a
storage error (in which case the state is untouched) or its result and
the successor state. -/
structure StorageInstance (σ : Type) where
  getOrder : σ → String → Except StoreErr Order
  getOrders : σ → OrderStatus → Except StoreErr (Option (List Order))
  setOrderStatus : σ → String → OrderStatus → Except StoreErr σ
  insertOrder : σ → Order → Except StoreErr (String × σ)

/-- The in-memory storage instance (`storage.NewMemory()`), with the
identifier that `InsertOrder` would freshly generate passed in as
`gen`. -/
def memory (gen : String) : StorageInstance Store where
  getOrder := getOrder
  getOrders := fun s st => .ok (getOrders s st)
  setOrderStatus := setOrderStatus
  insertOrder := insertOrder gen

/-- `orderFetchMiddleware`: resolve the `:id` URL parameter and fetch
the order from storage, aborting with `order_not_found` /
`internal_error`; on success the fetched order is handed to the
handler. -/
def orderFetchMiddleware (stor : StorageInstance σ) (s : σ) (id : String) :
    Except ApiError Order :=
  if id = "" then
    .error ⟨400, ErrCodeInvalidStatus, "missing order ID"⟩
  else
    match stor.getOrder s id with
    | .error .notFound => .error ⟨404, ErrCodeOrderNotFound, "not found"⟩
    | .error _ => .error ⟨500, ErrCodeInternalError, "error getting order"⟩
    | .ok o => .ok o

/-- The result of the GET /orders handler; `orders` is the JSON value
of the slice (`none` would be JSON `null`). -/
structure getOrdersRes where
  orders : Option (List Order)
deriving Repr, DecidableEq

/-- The `switch c.Query("status")` of the `getOrders` handler: resolve
the filter token to a status, `""` meaning all (`-1`), anything else
being rejected. -/
def statusFromToken (token : String) : Option OrderStatus :=
  if token = "pending" then some OrderStatusPending
  else if token = "charged" then some OrderStatusCharged
  else if token = "fulfilled" then some OrderStatusFulfilled
  else if token = "cancelled" then some OrderStatusCancelled
  else if token = "" then some (-1)
  else none

/-- The GET /orders handler (`getOrders` in the `api` package):
resolve the status token (else `invalid_status`), query storage
(failure becoming `internal_error`), replace a nil slice by an empty
one, and respond. -/
def getOrdersHandler (stor : StorageInstance σ) (s : σ) (token : String) :
    Except ApiError getOrdersRes :=
  match statusFromToken token with
  | none => .error ⟨400, ErrCodeInvalidStatus, "unknown value for status: %v"⟩
  | some st =>
    match stor.getOrders s st with
    | .error _ => .error ⟨500, ErrCodeInternalError, "error getting orders"⟩
    | .ok orders =>
      match orders with
      | none => .ok ⟨some []⟩
      | some l => .ok ⟨some l⟩

/-- The parsed body of POST /orders (`postOrderArgs`). -/
structure postOrderArgs where
  customerEmail : String
  lineItems : List LineItem
deriving Repr, DecidableEq

/-- The success payload of POST /orders (`postOrderRes`). -/
structure postOrderRes where
  order : Order
deriving Repr, DecidableEq

/-- The order value the `postOrders` handler constructs from the
request body: empty id, status `Pending`. -/
def newOrder (args : postOrderArgs) : Order :=
  { id := "", customerEmail := args.customerEmail,
    lineItems := args.lineItems, status := OrderStatusPending }

/-- The POST /orders handler (`postOrders`), after a successful
`BindJSON`: validate the email contains "@" (Go's
`strings.Contains(email, "@")`, embedded as membership of the
character in the email's character list), the line items are
non-empty and the total is non-negative, then insert a `Pending` order
with empty id (the request body carries no id), mapping
`ErrOrderExists` to 409 and other storage failures to 500. Returns the
response and the (possibly updated) store. -/
def postOrders (stor : StorageInstance σ) (args : postOrderArgs) (s : σ) :
    Except ApiError postOrderRes × σ :=
  if ¬ args.customerEmail.data.contains '@' then
    (.error ⟨400, ErrCodeInvalidEmail, "invalid customerEmail"⟩, s)
  else if args.lineItems.length < 1 then
    (.error ⟨400, ErrCodeInvalidLineItems,
      "an order must contain at least one line item"⟩, s)
  else if (newOrder args).TotalCents < 0 then
    (.error ⟨400, ErrCodeInvalidTotal,
      "an order's total cannot be less than 0"⟩, s)
  else
    match stor.insertOrder s (newOrder args) with
    | .error .alreadyExists =>
      (.error ⟨409, ErrCodeOrderExists, "order already exists"⟩, s)
    | .error _ =>
      (.error ⟨500, ErrCodeInternalError, "error inserting order"⟩, s)
    | .ok (id, s') => (.ok ⟨{ newOrder args with id := id }⟩, s')

/-- The parsed body of POST /orders/:id/charge (`chargeOrderArgs`). -/
structure chargeOrderArgs where
  cardToken : String
deriving Repr, DecidableEq

/-- The success payload of POST /orders/:id/charge (`chargeOrderRes`). -/
structure chargeOrderRes where
  chargedCents : Int
deriving Repr, DecidableEq

/-- The charge-service request the `chargeOrder` handler issues:
the request body's card token and the snapshot's total. -/
def chargeCallArgs (args : chargeOrderArgs) (order : Order) :
    chargeServiceChargeArgs :=
  ⟨args.cardToken, order.TotalCents⟩

/-- The POST /orders/:id/charge handler (`chargeOrder`), after a
successful `BindJSON`; `order` is the snapshot placed in the request
context by `orderFetchMiddleware`. Checks eligibility against that
snapshot, calls the charge service for the snapshot's total, and on
success unconditionally writes status `Charged`. Returns the response,
the resulting storage state, and the charge-service calls made. -/
def chargeOrder (stor : StorageInstance σ) (svc : ChargeSvc)
    (args : chargeOrderArgs) (order : Order) (s : σ) :
    Except ApiError chargeOrderRes × σ × List chargeServiceChargeArgs :=
  if order.status ≠ OrderStatusPending then
    (.error ⟨409, ErrCodeOrderNotEligible, "order ineligible for charging"⟩,
      s, [])
  else
    match svc (chargeCallArgs args order) with
    | .error msg =>
      (.error ⟨500, ErrCodeChargeServiceError, msg⟩, s, [chargeCallArgs args order])
    | .ok _ =>
      match stor.setOrderStatus s order.id OrderStatusCharged with
      | .error _ =>
        (.error ⟨500, ErrCodeInternalError, "error updating order to charged"⟩,
          s, [chargeCallArgs args order])
      | .ok s' => (.ok ⟨order.TotalCents⟩, s', [chargeCallArgs args order])

/-- The success payload of POST /orders/:id/cancel (`cancelOrderRes`);
`refundedCents` is `none` when the field is absent from the JSON
response (it is set only when strictly positive, and carries the
`omitempty` tag). -/
structure cancelOrderRes where
  message : String
  orderId : String
  refundedCents : Option Int
deriving Repr, DecidableEq

/-- The tail of the `cancelOrder` handler shared by the refund and
no-refund paths: write status `Cancelled` (failure becoming
`internal_error` with no state change), then respond, including
`refundedCents` in the JSON only when it is strictly positive. -/
def cancelOrderFinish (stor : StorageInstance σ) (order : Order) (s : σ)
    (refundedCents : Int) (calls : List chargeServiceChargeArgs) :
    Except ApiError cancelOrderRes × σ × List chargeServiceChargeArgs :=
  match stor.setOrderStatus s order.id OrderStatusCancelled with
  | .error _ =>
    (.error ⟨500, ErrCodeInternalError, "error cancelling order"⟩, s, calls)
  | .ok s' =>
    (.ok ⟨"order cancelled successfully", order.id,
      if refundedCents > 0 then some refundedCents else none⟩,
      s', calls)

/-- The charge-service request the `cancelOrder` handler issues for a
refund: empty card token (the original token is not stored) and the
negated snapshot total. -/
def refundCallArgs (order : Order) : chargeServiceChargeArgs :=
  ⟨"", -order.TotalCents⟩

/-- The POST /orders/:id/cancel handler (`cancelOrder`); `order` is
the snapshot placed in the request context by `orderFetchMiddleware`.
Only `Pending` or `Charged` snapshots are eligible; a `Charged` order
first gets a refund call (negated total, empty card token), whose
failure aborts with `charge_service_error` and no status write; then
status `Cancelled` is written. Returns the response, the resulting
storage state, and the charge-service calls made. -/
def cancelOrder (stor : StorageInstance σ) (svc : ChargeSvc)
    (order : Order) (s : σ) :
    Except ApiError cancelOrderRes × σ × List chargeServiceChargeArgs :=
  if order.status ≠ OrderStatusPending ∧ order.status ≠ OrderStatusCharged then
    (.error ⟨409, ErrCodeOrderNotEligible,
      "order cannot be cancelled - only pending or charged orders can be cancelled"⟩,
      s, [])
  else if order.status = OrderStatusCharged then
    match svc (refundCallArgs order) with
    | .error msg =>
      (.error ⟨500, ErrCodeChargeServiceError,
        "error processing refund: " ++ msg⟩, s, [refundCallArgs order])
    | .ok _ => cancelOrderFinish stor order s order.TotalCents [refundCallArgs order]
  else
    cancelOrderFinish stor order s 0 []

/-! ### Sequential execution of controller operations

One inbound request = `orderFetchMiddleware` (when the route carries an
`:id`) followed by the handler, run to completion against the memory
store before the next request starts. The charge-service outcome the
request would observe is part of the operation. -/

/-- One sequentially executed controller operation. -/
inductive Op where
  | create (gen : String) (args : postOrderArgs)
  | charge (outcome : Except String Unit) (args : chargeOrderArgs) (id : String)
  | cancel (outcome : Except String Unit) (id : String)

/-- The store state left behind by one operation. -/
def runOp (s : Store) : Op → Store
  | .create gen args => (postOrders (memory gen) args s).2
  | .charge outcome args id =>
    match orderFetchMiddleware (memory "") s id with
    | .error _ => s
    | .ok o => (chargeOrder (memory "") (fun _ => outcome) args o s).2.1
  | .cancel outcome id =>
    match orderFetchMiddleware (memory "") s id with
    | .error _ => s
    | .ok o => (cancelOrder (memory "") (fun _ => outcome) o s).2.1

/-- The store after a sequence of operations from the empty store. -/
def runOps (ops : List Op) : Store := ops.foldl runOp []

/-- The status-transition edges of the spec's state machine that the
operations of this core can take: `Pending → Charged` (charge),
`Pending → Cancelled` and `Charged → Cancelled` (cancel). -/
def legalEdge (a b : OrderStatus) : Prop :=
  (a = OrderStatusPending ∧ b = OrderStatusCharged) ∨
  (a = OrderStatusPending ∧ b = OrderStatusCancelled) ∨
  (a = OrderStatusCharged ∧ b = OrderStatusCancelled)

/-- A concrete pending order, used to exercise the concurrency analysis
of two overlapping charge requests. -/
def raceOrder : Order :=
  { id := "o1", customerEmail := "a@b.c",
    lineItems := [⟨"Widget", 1000, 2⟩], status := OrderStatusPending }

/-- A store holding exactly `raceOrder`. -/
def raceStore : Store := [raceOrder]

/-- A charge service that accepts every request. -/
def svcOK : ChargeSvc := fun _ => .ok ()

/-- A charge service that refuses every request with a fixed message. -/
def svcFail : ChargeSvc := fun _ => .error "card declined"

/-- A charged copy of `raceOrder`. -/
def chargedOrder : Order := { raceOrder with status := OrderStatusCharged }

/-- A store holding exactly `chargedOrder`. -/
def chargedStore : Store := [chargedOrder]

/-- A charged order whose line items sum to zero (a fully discounted
order). -/
def zeroOrder : Order :=
  { id := "z1", customerEmail := "z@b.c",
    lineItems := [⟨"Voucher", 1000, 2⟩, ⟨"Discount", -2000, 1⟩],
    status := OrderStatusCharged }

/-- A store holding exactly `zeroOrder`. -/
def zeroStore : Store := [zeroOrder]

/-- A second, charged order with a distinct id. -/
def otherOrder : Order :=
  { id := "o2", customerEmail := "c@d.e",
    lineItems := [⟨"Gadget", 500, 1⟩], status := OrderStatusCharged }

/-- A store with one pending and one charged order. -/
def demoStore : Store := [raceOrder, otherOrder]

/-! ### Lemmas about the store primitives -/

theorem Store.find_id {s : Store} {id : String} {o : Order}
    (h : Store.find s id = some o) : o.id = id := by
  unfold Store.find at h
  have hp := List.find?_some h
  simp only [decide_eq_true_eq] at hp
  exact hp

theorem Store.find_append_left {s : Store} {id : String} {o : Order}
    (h : Store.find s id = some o) (t : Store) :
    Store.find (s ++ t) id = some o := by
  unfold Store.find at *
  rw [List.find?_append, h]
  rfl

theorem updStatus_id (tid : String) (ns : OrderStatus) (o : Order) :
    (updStatus tid ns o).id = o.id := by
  unfold updStatus
  split <;> rfl

theorem Store.find_map_updStatus (s : Store) (tid : String) (ns : OrderStatus)
    (id : String) :
    Store.find (s.map (updStatus tid ns)) id =
      (Store.find s id).map (updStatus tid ns) := by
  induction s with
  | nil => rfl
  | cons a t ih =>
    unfold Store.find at *
    simp only [List.map_cons, List.find?_cons]
    by_cases h : a.id = id
    · simp [updStatus_id, h]
    · simp [updStatus_id, h, ih]

theorem setOrderStatus_ok {s : Store} {id : String} {ns : OrderStatus} {s' : Store}
    (h : setOrderStatus s id ns = .ok s') :
    s' = s.map (updStatus id ns) := by
  unfold setOrderStatus at h
  cases hf : Store.find s id with
  | none => simp only [hf] at h; simp at h
  | some o => simp only [hf] at h; injection h with h; exact h.symm

theorem setOrderStatus_error {s : Store} {id : String} {ns : OrderStatus} {e : StoreErr}
    (h : setOrderStatus s id ns = .error e) :
    Store.find s id = none ∧ e = .notFound := by
  unfold setOrderStatus at h
  cases hf : Store.find s id with
  | none => simp only [hf] at h; injection h with h; exact ⟨rfl, h.symm⟩
  | some o => simp only [hf] at h; simp at h

theorem insertOrder_ok {gen : String} {s : Store} {o : Order} {id : String}
    {s' : Store} (h : insertOrder gen s o = .ok (id, s')) :
    id = (if o.id = "" then { o with id := gen } else o).id ∧
    s' = s ++ [if o.id = "" then { o with id := gen } else o] ∧
    Store.find s (if o.id = "" then { o with id := gen } else o).id = none := by
  unfold insertOrder at h
  cases hf : Store.find s (if o.id = "" then { o with id := gen } else o).id with
  | none =>
    simp only [hf] at h
    injection h with h
    refine ⟨?_, ?_, rfl⟩
    · exact (congrArg Prod.fst h).symm
    · exact (congrArg Prod.snd h).symm
  | some x => simp only [hf] at h; simp at h

theorem orderFetchMiddleware_ok {gen : String} {s : Store} {id : String} {o : Order}
    (h : orderFetchMiddleware (memory gen) s id = .ok o) :
    Store.find s id = some o := by
  simp only [orderFetchMiddleware, memory, getOrder] at h
  split at h
  · simp at h
  · cases hf : Store.find s id with
    | none => simp only [hf] at h; simp at h
    | some o1 => simp only [hf] at h; injection h with h; rw [← h]

/-! ### Lemmas about the handlers' store effects -/

theorem postOrders_store (gen : String) (args : postOrderArgs) (s : Store) :
    (postOrders (memory gen) args s).2 = s ∨
    ∃ x : Order, (postOrders (memory gen) args s).2 = s ++ [x] := by
  unfold postOrders
  split
  · exact .inl rfl
  split
  · exact .inl rfl
  split
  · exact .inl rfl
  split
  · exact .inl rfl
  · exact .inl rfl
  · next id s' heq => exact .inr ⟨_, (insertOrder_ok heq).2.1⟩

theorem chargeOrder_store_cases (svc : ChargeSvc) (args : chargeOrderArgs)
    (order : Order) (s : Store) :
    (chargeOrder (memory "") svc args order s).2.1 = s ∨
    (order.status = OrderStatusPending ∧
      (chargeOrder (memory "") svc args order s).2.1 =
        s.map (updStatus order.id OrderStatusCharged)) := by
  unfold chargeOrder
  split
  · exact .inl rfl
  · next hp =>
    rw [not_not] at hp
    split
    · exact .inl rfl
    · split
      · exact .inl rfl
      · next s' heq => exact .inr ⟨hp, setOrderStatus_ok heq⟩

theorem cancelOrderFinish_store_cases (order : Order) (s : Store) (rc : Int)
    (calls : List chargeServiceChargeArgs) :
    (cancelOrderFinish (memory "") order s rc calls).2.1 = s ∨
    (cancelOrderFinish (memory "") order s rc calls).2.1 =
      s.map (updStatus order.id OrderStatusCancelled) := by
  unfold cancelOrderFinish
  split
  · exact .inl rfl
  · next s' heq => exact .inr (setOrderStatus_ok heq)

theorem cancelOrder_store_cases (svc : ChargeSvc) (order : Order) (s : Store) :
    (cancelOrder (memory "") svc order s).2.1 = s ∨
    ((order.status = OrderStatusPending ∨ order.status = OrderStatusCharged) ∧
      (cancelOrder (memory "") svc order s).2.1 =
        s.map (updStatus order.id OrderStatusCancelled)) := by
  unfold cancelOrder
  split
  · exact .inl rfl
  · next hel =>
    split
    · next hc =>
      split
      · exact .inl rfl
      · rcases cancelOrderFinish_store_cases order s order.TotalCents
          [refundCallArgs order] with h | h
        · exact .inl h
        · exact .inr ⟨.inr hc, h⟩
    · next hnc =>
      have hp : order.status = OrderStatusPending := by
        by_contra hq
        exact hel ⟨hq, hnc⟩
      rcases cancelOrderFinish_store_cases order s 0 [] with h | h
      · exact .inl h
      · exact .inr ⟨.inl hp, h⟩

/-- No sequential controller operation, applied to any store, changes a
stored order's status except along a legal edge of the state machine. -/
theorem runOp_legal (s : Store) (op : Op) (id : String) (o o' : Order)
    (h : Store.find s id = some o)
    (h' : Store.find (runOp s op) id = some o')
    (hne : o.status ≠ o'.status) :
    legalEdge o.status o'.status := by
  cases op with
  | create gen args =>
    simp only [runOp] at h'
    rcases postOrders_store gen args s with heq | ⟨x, heq⟩
    · rw [heq, h] at h'
      injection h' with h'
      exact absurd (congrArg Order.status h') hne
    · rw [heq, Store.find_append_left h [x]] at h'
      injection h' with h'
      exact absurd (congrArg Order.status h') hne
  | charge outcome args reqid =>
    simp only [runOp] at h'
    cases hmid : orderFetchMiddleware (memory "") s reqid with
    | error e =>
      simp only [hmid] at h'
      rw [h] at h'
      injection h' with h'
      exact absurd (congrArg Order.status h') hne
    | ok ord =>
      simp only [hmid] at h'
      rcases chargeOrder_store_cases (fun _ => outcome) args ord s with heq | ⟨hp, heq⟩
      · rw [heq, h] at h'
        injection h' with h'
        exact absurd (congrArg Order.status h') hne
      · rw [heq, Store.find_map_updStatus, h] at h'
        simp only [Option.map] at h'
        injection h' with h'
        unfold updStatus at h'
        by_cases hid : o.id = ord.id
        · rw [if_pos hid] at h'
          have hordid : ord.id = reqid :=
            Store.find_id (orderFetchMiddleware_ok hmid)
          have hoid : o.id = id := Store.find_id h
          have hids : id = reqid := by rw [← hoid, hid, hordid]
          have hoo : o = ord := by
            have hfo := orderFetchMiddleware_ok hmid
            rw [← hids] at hfo
            rw [h] at hfo
            injection hfo
          unfold legalEdge
          exact .inl ⟨by rw [hoo]; exact hp, by rw [← h']⟩
        · rw [if_neg hid] at h'
          exact absurd (congrArg Order.status h') hne
  | cancel outcome reqid =>
    simp only [runOp] at h'
    cases hmid : orderFetchMiddleware (memory "") s reqid with
    | error e =>
      simp only [hmid] at h'
      rw [h] at h'
      injection h' with h'
      exact absurd (congrArg Order.status h') hne
    | ok ord =>
      simp only [hmid] at h'
      rcases cancelOrder_store_cases (fun _ => outcome) ord s with heq | ⟨hp, heq⟩
      · rw [heq, h] at h'
        injection h' with h'
        exact absurd (congrArg Order.status h') hne
      · rw [heq, Store.find_map_updStatus, h] at h'
        simp only [Option.map] at h'
        injection h' with h'
        unfold updStatus at h'
        by_cases hid : o.id = ord.id
        · rw [if_pos hid] at h'
          have hordid : ord.id = reqid :=
            Store.find_id (orderFetchMiddleware_ok hmid)
          have hoid : o.id = id := Store.find_id h
          have hids : id = reqid := by rw [← hoid, hid, hordid]
          have hoo : o = ord := by
            have hfo := orderFetchMiddleware_ok hmid
            rw [← hids] at hfo
            rw [h] at hfo
            injection hfo
          unfold legalEdge
          rcases hp with hp | hp
          · exact .inr (.inl ⟨by rw [hoo]; exact hp, by rw [← h']⟩)
          · exact .inr (.inr ⟨by rw [hoo]; exact hp, by rw [← h']⟩)
        · rw [if_neg hid] at h'
          exact absurd (congrArg Order.status h') hne

theorem goSlice_getD (l : List Order) : (goSlice l).getD [] = l := by
  unfold goSlice
  split <;> simp_all

theorem cancelOrderFinish_calls {σ : Type} (stor : StorageInstance σ)
    (order : Order) (s : σ) (rc : Int) (calls : List chargeServiceChargeArgs) :
    (cancelOrderFinish stor order s rc calls).2.2 = calls := by
  unfold cancelOrderFinish
  split <;> rfl

theorem Store.find_none_iff (s : Store) (id : String) :
    Store.find s id = none ↔ ∀ r ∈ s, r.id ≠ id := by
  unfold Store.find
  rw [List.find?_eq_none]
  simp

/-! ### Claim theorems -/

/-- C8: for every store state, `SetOrderStatus(id, newStatus)` fails with
`NotFound` when no record with that id exists; otherwise it overwrites
only the status field of the record identified by `id` (no transition
validation), leaving that record's other fields and every other stored
record unchanged. -/
theorem C8_setOrderStatus_frame (s : Store) (id : String) (ns : OrderStatus) :
    (Store.find s id = none → setOrderStatus s id ns = .error .notFound) ∧
    (∀ o : Order, Store.find s id = some o →
      ∃ s' : Store, setOrderStatus s id ns = .ok s' ∧
        Store.find s' id = some { o with status := ns } ∧
        (∀ id' : String, id' ≠ id → Store.find s' id' = Store.find s id') ∧
        s'.length = s.length) := by
  constructor
  · intro hf
    unfold setOrderStatus
    rw [hf]
  · intro o hf
    refine ⟨s.map (updStatus id ns), ?_, ?_, ?_, ?_⟩
    · unfold setOrderStatus
      rw [hf]
    · rw [Store.find_map_updStatus, hf]
      simp only [Option.map]
      unfold updStatus
      rw [if_pos (Store.find_id hf)]
    · intro id' hne
      rw [Store.find_map_updStatus]
      cases hx : Store.find s id' with
      | none => rfl
      | some x =>
        simp only [Option.map]
        unfold updStatus
        rw [if_neg (by rw [Store.find_id hx]; exact hne)]
    · exact List.length_map s (updStatus id ns)

/-- Witness for C8 at a concrete one-order store. -/
theorem C8_setOrderStatus_frame_witness :
    Store.find raceStore "o1" = some raceOrder ∧
    ∃ s' : Store,
      setOrderStatus raceStore "o1" OrderStatusCancelled = .ok s' ∧
      Store.find s' "o1" = some { raceOrder with status := OrderStatusCancelled } ∧
      (∀ id' : String, id' ≠ "o1" → Store.find s' id' = Store.find raceStore id') ∧
      s'.length = raceStore.length :=
  ⟨by decide,
    (C8_setOrderStatus_frame raceStore "o1" OrderStatusCancelled).2
      raceOrder (by decide)⟩

/-- C5: an `InsertOrder` whose (caller-supplied, or generated when the
incoming id is empty) id already exists in the store fails with
`AlreadyExists`; a successful insert stores the record under an id that
was absent before, leaves every previously stored record unchanged, and
preserves id-uniqueness of the store; an incoming empty id is replaced
by the generated identifier, a non-empty id is kept. -/
theorem C5_insertOrder_unique (gen : String) (s : Store) (o : Order) :
    (∀ r : Order, Store.find s (if o.id = "" then gen else o.id) = some r →
      insertOrder gen s o = .error .alreadyExists) ∧
    (∀ id : String, ∀ s' : Store, insertOrder gen s o = .ok (id, s') →
      Store.find s id = none ∧
      (∀ id' : String, ∀ r : Order,
        Store.find s id' = some r → Store.find s' id' = some r) ∧
      ((s.map Order.id).Nodup → (s'.map Order.id).Nodup) ∧
      (o.id = "" → id = gen) ∧
      (o.id ≠ "" → id = o.id)) := by
  have hid : (if o.id = "" then { o with id := gen } else o).id =
      (if o.id = "" then gen else o.id) := by
    split <;> rfl
  constructor
  · intro r hr
    unfold insertOrder
    simp only [hid, hr]
  · intro id s' hok
    obtain ⟨h1, h2, h3⟩ := insertOrder_ok hok
    rw [hid] at h1 h3
    refine ⟨?_, ?_, ?_, ?_, ?_⟩
    · rw [h1]
      exact h3
    · intro id' r hr
      rw [h2]
      exact Store.find_append_left hr _
    · intro hnd
      rw [h2, List.map_append]
      refine List.Nodup.append hnd (List.nodup_singleton _) ?_
      intro a ha hb
      simp only [List.map_cons, List.map_nil, List.mem_singleton] at hb
      rcases List.mem_map.1 ha with ⟨r, hrmem, hrid⟩
      have hne := (Store.find_none_iff s _).1 h3 r hrmem
      exact hne (by rw [hrid, hb, hid])
    · intro he
      rw [h1, if_pos he]
    · intro he
      rw [h1, if_neg he]

/-- Witness for C5: a colliding caller-supplied id fails; an empty-id
insert under a fresh generated id succeeds and keeps ids unique. -/
theorem C5_insertOrder_unique_witness :
    (Store.find raceStore "o1" = some raceOrder ∧
      insertOrder "g1" raceStore raceOrder = .error .alreadyExists) ∧
    (insertOrder "g1" raceStore { raceOrder with id := "" } =
        .ok ("g1", raceStore ++ [{ raceOrder with id := "g1" }]) ∧
      Store.find raceStore "g1" = none ∧
      ((raceStore ++ [{ raceOrder with id := "g1" }]).map Order.id).Nodup) := by
  have h1 := (C5_insertOrder_unique "g1" raceStore raceOrder).1 raceOrder (by decide)
  have hins : insertOrder "g1" raceStore { raceOrder with id := "" } =
      .ok ("g1", raceStore ++ [{ raceOrder with id := "g1" }]) := by decide
  have h2 := (C5_insertOrder_unique "g1" raceStore { raceOrder with id := "" }).2
      "g1" (raceStore ++ [{ raceOrder with id := "g1" }]) hins
  exact ⟨⟨by decide, h1⟩, hins, h2.1, h2.2.2.1 (by decide)⟩

/-- C7: `GetOrders` with the `-1` (All) filter returns every stored
order; with a concrete status filter it returns exactly the stored
orders whose status matches (the filtered store — none missing, none
duplicated); and the GET /orders handler always responds with a present
`orders` array — an empty slice, never a JSON null, when nothing
matches. -/
theorem C7_getOrders_filter (s : Store) (st : OrderStatus) :
    (getOrders s (-1)).getD [] = s ∧
    (st ≠ -1 →
      (getOrders s st).getD [] = s.filter (fun o => o.status == st)) ∧
    (∀ token : String, ∀ st' : OrderStatus, statusFromToken token = some st' →
      getOrdersHandler (memory "") s token =
        .ok ⟨some ((getOrders s st').getD [])⟩) := by
  refine ⟨?_, ?_, ?_⟩
  · unfold getOrders
    rw [goSlice_getD]
    simp
  · intro hne
    unfold getOrders
    rw [goSlice_getD]
    have hb : ∀ o : Order, (st == -1 || o.status == st) = (o.status == st) := by
      intro o
      have h1 : (st == -1) = false := by
        simp only [beq_eq_false_iff_ne, ne_eq]
        exact hne
      rw [h1, Bool.false_or]
    simp only [hb]
  · intro token st' htok
    unfold getOrdersHandler
    rw [htok]
    simp only [memory]
    cases hg : getOrders s st' with
    | none => simp only [hg]; rfl
    | some l => simp only [hg]; rfl

/-- Witness for C7 on a two-order store (one pending, one charged) and
on the empty store. -/
theorem C7_getOrders_filter_witness :
    (getOrders demoStore (-1)).getD [] = demoStore ∧
    ((0 : OrderStatus) ≠ -1 ∧ (getOrders demoStore 0).getD [] = [raceOrder]) ∧
    (statusFromToken "pending" = some 0 ∧
      getOrdersHandler (memory "") demoStore "pending" = .ok ⟨some [raceOrder]⟩) ∧
    getOrdersHandler (memory "") ([] : Store) "pending" = .ok ⟨some []⟩ := by
  obtain ⟨h1, h2, h3⟩ := C7_getOrders_filter demoStore 0
  refine ⟨h1, ⟨by decide, ?_⟩, ⟨by decide, ?_⟩, ?_⟩
  · rw [h2 (by decide)]
    decide
  · rw [h3 "pending" 0 (by decide)]
    decide
  · obtain ⟨_, _, h3e⟩ := C7_getOrders_filter ([] : Store) 0
    rw [h3e "pending" 0 (by decide)]
    decide

/-- C3: `chargeOrder` returns `NotEligible` with no charge call and no
status mutation when the fetched snapshot is not `Pending`; surfaces a
charge-service failure as `ChargeServiceError` with the underlying
message and no status mutation; and on charge success writes status
`Charged` (a store failure surfacing as `InternalError`), returning
`chargedCents` equal to the snapshot's total at charge time. -/
theorem C3_chargeOrder_behavior (svc : ChargeSvc) (args : chargeOrderArgs)
    (order : Order) (s : Store) :
    (order.status ≠ OrderStatusPending →
      chargeOrder (memory "") svc args order s =
        (.error ⟨409, ErrCodeOrderNotEligible, "order ineligible for charging"⟩,
          s, [])) ∧
    (order.status = OrderStatusPending →
      (∀ msg : String, svc (chargeCallArgs args order) = .error msg →
        chargeOrder (memory "") svc args order s =
          (.error ⟨500, ErrCodeChargeServiceError, msg⟩, s,
            [chargeCallArgs args order])) ∧
      (svc (chargeCallArgs args order) = .ok () →
        (∀ e : StoreErr,
          setOrderStatus s order.id OrderStatusCharged = .error e →
          chargeOrder (memory "") svc args order s =
            (.error ⟨500, ErrCodeInternalError, "error updating order to charged"⟩,
              s, [chargeCallArgs args order])) ∧
        (∀ s' : Store,
          setOrderStatus s order.id OrderStatusCharged = .ok s' →
          chargeOrder (memory "") svc args order s =
            (.ok ⟨order.TotalCents⟩, s', [chargeCallArgs args order])))) := by
  constructor
  · intro h
    unfold chargeOrder
    rw [if_pos h]
  · intro hp
    have hcond : ¬ (order.status ≠ OrderStatusPending) := not_not_intro hp
    constructor
    · intro msg hsvc
      unfold chargeOrder
      rw [if_neg hcond]
      simp only [hsvc]
    · intro hsvc
      constructor
      · intro e hset
        unfold chargeOrder
        rw [if_neg hcond]
        simp only [hsvc, memory, hset]
      · intro s' hset
        unfold chargeOrder
        rw [if_neg hcond]
        simp only [hsvc, memory, hset]

/-- Witness for C3 on the charge success path of a concrete pending
order. -/
theorem C3_chargeOrder_behavior_witness :
    raceOrder.status = OrderStatusPending ∧
    svcOK (chargeCallArgs ⟨"tok"⟩ raceOrder) = .ok () ∧
    setOrderStatus raceStore "o1" OrderStatusCharged = .ok [chargedOrder] ∧
    chargeOrder (memory "") svcOK ⟨"tok"⟩ raceOrder raceStore =
      (.ok ⟨2000⟩, [chargedOrder], [chargeCallArgs ⟨"tok"⟩ raceOrder]) := by
  have h := (((C3_chargeOrder_behavior svcOK ⟨"tok"⟩ raceOrder raceStore).2
      rfl).2 rfl).2 [chargedOrder] (by decide)
  refine ⟨rfl, rfl, by decide, ?_⟩
  rw [h]
  decide

/-- C2: cancelling a `Charged` order always issues exactly one external
charge-service call, carrying the negated total; a failing refund call
aborts the cancellation with `ChargeServiceError` and no status write —
the store is returned exactly as it was, so the order remains
`Charged`. -/
theorem C2_cancel_refund_gating (svc : ChargeSvc) (order : Order) (s : Store)
    (hc : order.status = OrderStatusCharged) :
    (refundCallArgs order).amountCents = -order.TotalCents ∧
    (cancelOrder (memory "") svc order s).2.2 = [refundCallArgs order] ∧
    (∀ msg : String, svc (refundCallArgs order) = .error msg →
      cancelOrder (memory "") svc order s =
        (.error ⟨500, ErrCodeChargeServiceError,
            "error processing refund: " ++ msg⟩,
          s, [refundCallArgs order])) := by
  have hcond :
      ¬ (order.status ≠ OrderStatusPending ∧
        order.status ≠ OrderStatusCharged) := by
    intro h
    exact h.2 hc
  refine ⟨rfl, ?_, ?_⟩
  · unfold cancelOrder
    rw [if_neg hcond, if_pos hc]
    cases hsvc : svc (refundCallArgs order) with
    | error msg => simp only [hsvc]
    | ok u => simp only [hsvc]; exact cancelOrderFinish_calls _ _ _ _ _
  · intro msg hsvc
    unfold cancelOrder
    rw [if_neg hcond, if_pos hc]
    simp only [hsvc]

/-- Witness for C2: a failing refund on a concrete charged order leaves
the store untouched. -/
theorem C2_cancel_refund_gating_witness :
    chargedOrder.status = OrderStatusCharged ∧
    svcFail (refundCallArgs chargedOrder) = .error "card declined" ∧
    cancelOrder (memory "") svcFail chargedOrder chargedStore =
      (.error ⟨500, ErrCodeChargeServiceError,
          "error processing refund: card declined"⟩,
        chargedStore, [refundCallArgs chargedOrder]) := by
  have h := (C2_cancel_refund_gating svcFail chargedOrder chargedStore rfl).2.2
      "card declined" rfl
  refine ⟨rfl, rfl, ?_⟩
  rw [h]
  decide

/-- C9: on a `Charged` snapshot the refund call precedes the status
write with no compensation: when the refund succeeds but the subsequent
`SetOrderStatus(id, Cancelled)` fails on the storage backend, the
handler returns `InternalError` and the storage state is returned
untouched — the stored order remains `Charged` even though the refund
was already issued (it is in the call trace). -/
theorem C9_refund_then_persist_gap {σ : Type} (stor : StorageInstance σ)
    (svc : ChargeSvc) (order : Order) (s : σ) (e : StoreErr)
    (hc : order.status = OrderStatusCharged)
    (hsvc : svc (refundCallArgs order) = .ok ())
    (hset : stor.setOrderStatus s order.id OrderStatusCancelled = .error e) :
    cancelOrder stor svc order s =
      (.error ⟨500, ErrCodeInternalError, "error cancelling order"⟩, s,
        [refundCallArgs order]) := by
  have hcond :
      ¬ (order.status ≠ OrderStatusPending ∧
        order.status ≠ OrderStatusCharged) := by
    intro h
    exact h.2 hc
  unfold cancelOrder
  rw [if_neg hcond, if_pos hc]
  simp only [hsvc]
  unfold cancelOrderFinish
  simp only [hset]

/-- Witness for C9: a backend whose status write fails (here the id is
absent, as a database failure would equally produce) after a successful
refund. -/
theorem C9_refund_then_persist_gap_witness :
    chargedOrder.status = OrderStatusCharged ∧
    svcOK (refundCallArgs chargedOrder) = .ok () ∧
    (memory "").setOrderStatus ([] : Store) chargedOrder.id
      OrderStatusCancelled = .error .notFound ∧
    cancelOrder (memory "") svcOK chargedOrder ([] : Store) =
      (.error ⟨500, ErrCodeInternalError, "error cancelling order"⟩,
        ([] : Store), [refundCallArgs chargedOrder]) :=
  ⟨rfl, rfl, by decide,
    C9_refund_then_persist_gap (memory "") svcOK chargedOrder [] .notFound
      rfl rfl (by decide)⟩

/-- C10: cancelling a `Charged` order whose total is zero issues the
refund call with `amountCents = 0` and, on success, cancels the order,
but the success response omits `refundedCents` (the field is included
only when strictly positive). -/
theorem C10_cancel_zero_total (svc : ChargeSvc) (order : Order)
    (s s' : Store)
    (hc : order.status = OrderStatusCharged)
    (hz : order.TotalCents = 0)
    (hsvc : svc ⟨"", 0⟩ = .ok ())
    (hset : setOrderStatus s order.id OrderStatusCancelled = .ok s') :
    refundCallArgs order = ⟨"", 0⟩ ∧
    cancelOrder (memory "") svc order s =
      (.ok ⟨"order cancelled successfully", order.id, none⟩, s', [⟨"", 0⟩]) ∧
    (∀ r : Order, Store.find s order.id = some r →
      Store.find s' order.id = some { r with status := OrderStatusCancelled }) := by
  have hargs : refundCallArgs order = ⟨"", 0⟩ := by
    simp [refundCallArgs, hz]
  have hcond :
      ¬ (order.status ≠ OrderStatusPending ∧
        order.status ≠ OrderStatusCharged) := by
    intro h
    exact h.2 hc
  refine ⟨hargs, ?_, ?_⟩
  · unfold cancelOrder
    rw [if_neg hcond, if_pos hc, hargs]
    simp only [hsvc]
    unfold cancelOrderFinish
    simp only [memory, hset]
    rw [hz]
    rfl
  · intro r hr
    rw [setOrderStatus_ok hset, Store.find_map_updStatus, hr]
    simp only [Option.map]
    unfold updStatus
    rw [if_pos (Store.find_id hr)]

/-- Witness for C10 at a concrete fully discounted charged order. -/
theorem C10_cancel_zero_total_witness :
    zeroOrder.status = OrderStatusCharged ∧
    zeroOrder.TotalCents = 0 ∧
    svcOK ⟨"", 0⟩ = .ok () ∧
    setOrderStatus zeroStore "z1" OrderStatusCancelled =
      .ok [{ zeroOrder with status := OrderStatusCancelled }] ∧
    cancelOrder (memory "") svcOK zeroOrder zeroStore =
      (.ok ⟨"order cancelled successfully", "z1", none⟩,
        [{ zeroOrder with status := OrderStatusCancelled }], [⟨"", 0⟩]) := by
  have h := C10_cancel_zero_total svcOK zeroOrder zeroStore
      [{ zeroOrder with status := OrderStatusCancelled }] rfl (by decide) rfl
      (by decide)
  refine ⟨rfl, by decide, rfl, by decide, ?_⟩
  rw [h.2.1]
  decide

/-- C6: `postOrders` validates before any mutation: a missing "@" yields
`InvalidEmail`, then empty line items yield `InvalidLineItems`, then a
negative computed total yields `InvalidTotal` (zero and positive totals
proceed), each with the store unchanged; when all three checks pass the
order is constructed with status `Pending` and delegated to the store's
insert, an id collision propagating as `AlreadyExists` and a success
returning the inserted order and the updated store. -/
theorem C6_postOrders_validation (gen : String) (args : postOrderArgs)
    (s : Store) :
    (newOrder args).status = OrderStatusPending ∧
    (args.customerEmail.data.contains '@' = false →
      postOrders (memory gen) args s =
        (.error ⟨400, ErrCodeInvalidEmail, "invalid customerEmail"⟩, s)) ∧
    (args.customerEmail.data.contains '@' = true → args.lineItems = [] →
      postOrders (memory gen) args s =
        (.error ⟨400, ErrCodeInvalidLineItems,
          "an order must contain at least one line item"⟩, s)) ∧
    (args.customerEmail.data.contains '@' = true → args.lineItems ≠ [] →
      (newOrder args).TotalCents < 0 →
      postOrders (memory gen) args s =
        (.error ⟨400, ErrCodeInvalidTotal,
          "an order's total cannot be less than 0"⟩, s)) ∧
    (args.customerEmail.data.contains '@' = true → args.lineItems ≠ [] →
      0 ≤ (newOrder args).TotalCents →
      (insertOrder gen s (newOrder args) = .error .alreadyExists →
        postOrders (memory gen) args s =
          (.error ⟨409, ErrCodeOrderExists, "order already exists"⟩, s)) ∧
      (∀ id : String, ∀ s' : Store,
        insertOrder gen s (newOrder args) = .ok (id, s') →
        postOrders (memory gen) args s =
          (.ok ⟨{ newOrder args with id := id }⟩, s'))) := by
  refine ⟨rfl, ?_, ?_, ?_, ?_⟩
  · intro he
    unfold postOrders
    rw [if_pos (by rw [he]; simp)]
  · intro he hli
    unfold postOrders
    rw [if_neg (not_not_intro he), if_pos (by simp [hli])]
  · intro he hli ht
    have hlen : ¬ (args.lineItems.length < 1) := by
      simp only [Nat.lt_one_iff, List.length_eq_zero]
      exact hli
    unfold postOrders
    rw [if_neg (not_not_intro he), if_neg hlen, if_pos ht]
  · intro he hli ht
    have hlen : ¬ (args.lineItems.length < 1) := by
      simp only [Nat.lt_one_iff, List.length_eq_zero]
      exact hli
    constructor
    · intro hins
      unfold postOrders
      rw [if_neg (not_not_intro he), if_neg hlen, if_neg (not_lt.2 ht)]
      simp only [memory, hins]
    · intro id s' hins
      unfold postOrders
      rw [if_neg (not_not_intro he), if_neg hlen, if_neg (not_lt.2 ht)]
      simp only [memory, hins]

/-- Witness for C6 on the successful-creation path from an empty
store. -/
theorem C6_postOrders_validation_witness :
    (newOrder ⟨"x@y", [⟨"w", 5, 1⟩]⟩).status = OrderStatusPending ∧
    ("x@y" : String).data.contains '@' = true ∧
    ([⟨"w", 5, 1⟩] : List LineItem) ≠ [] ∧
    0 ≤ (newOrder ⟨"x@y", [⟨"w", 5, 1⟩]⟩).TotalCents ∧
    insertOrder "g1" [] (newOrder ⟨"x@y", [⟨"w", 5, 1⟩]⟩) =
      .ok ("g1", [{ newOrder ⟨"x@y", [⟨"w", 5, 1⟩]⟩ with id := "g1" }]) ∧
    postOrders (memory "g1") ⟨"x@y", [⟨"w", 5, 1⟩]⟩ ([] : Store) =
      (.ok ⟨{ newOrder ⟨"x@y", [⟨"w", 5, 1⟩]⟩ with id := "g1" }⟩,
        [{ newOrder ⟨"x@y", [⟨"w", 5, 1⟩]⟩ with id := "g1" }]) := by
  have h := ((C6_postOrders_validation "g1" ⟨"x@y", [⟨"w", 5, 1⟩]⟩ []).2.2.2.2
      (by decide) (by decide) (by decide)).2 "g1"
      [{ newOrder ⟨"x@y", [⟨"w", 5, 1⟩]⟩ with id := "g1" }] (by decide)
  exact ⟨rfl, by decide, by decide, by decide, by decide, h⟩

/-- C4: along every sequential operation sequence from the empty store,
every status change an operation produces on any stored order matches an
edge of the state machine restricted to this core's operations
(`Pending → Charged`, `Pending → Cancelled`, `Charged → Cancelled`); in
particular no order ever leaves `Fulfilled` or `Cancelled`. -/
theorem C4_legal_transitions_only (ops : List Op) (op : Op) (id : String)
    (o o' : Order)
    (h : Store.find (runOps ops) id = some o)
    (h' : Store.find (runOp (runOps ops) op) id = some o')
    (hne : o.status ≠ o'.status) :
    legalEdge o.status o'.status ∧
    o.status ≠ OrderStatusFulfilled ∧ o.status ≠ OrderStatusCancelled := by
  have hl := runOp_legal (runOps ops) op id o o' h h' hne
  refine ⟨hl, ?_, ?_⟩ <;>
    rcases hl with ⟨h1, _⟩ | ⟨h1, _⟩ | ⟨h1, _⟩ <;>
    rw [h1] <;> decide

/-- Witness for C4: creating then charging an order takes the
`Pending → Charged` edge. -/
theorem C4_legal_transitions_only_witness :
    Store.find (runOps [Op.create "a1" ⟨"x@y", [⟨"w", 5, 1⟩]⟩]) "a1" =
      some ⟨"a1", "x@y", [⟨"w", 5, 1⟩], OrderStatusPending⟩ ∧
    Store.find (runOp (runOps [Op.create "a1" ⟨"x@y", [⟨"w", 5, 1⟩]⟩])
        (Op.charge (.ok ()) ⟨"tok"⟩ "a1")) "a1" =
      some ⟨"a1", "x@y", [⟨"w", 5, 1⟩], OrderStatusCharged⟩ ∧
    OrderStatusPending ≠ OrderStatusCharged ∧
    legalEdge OrderStatusPending OrderStatusCharged := by
  have h := C4_legal_transitions_only [Op.create "a1" ⟨"x@y", [⟨"w", 5, 1⟩]⟩]
      (Op.charge (.ok ()) ⟨"tok"⟩ "a1") "a1"
      ⟨"a1", "x@y", [⟨"w", 5, 1⟩], OrderStatusPending⟩
      ⟨"a1", "x@y", [⟨"w", 5, 1⟩], OrderStatusCharged⟩
      (by decide) (by decide) (by decide)
  exact ⟨by decide, by decide, by decide, h.1⟩

/-- C1: counterexample to the claimed mutual exclusion. The eligibility
check of `chargeOrder` uses the snapshot fetched by
`orderFetchMiddleware` before the handler runs, and `SetOrderStatus`
overwrites unconditionally; so when two overlapping charge requests both
fetch the order while it is still `Pending` (both middleware fetches
precede both handlers, a legal interleaving since the store's mutex is
released between the two), BOTH requests succeed with `chargedCents =
2000`, each issuing its own external charge call — instead of exactly
one success and one `NotEligible`. The final stored status is `Charged`. -/
theorem C1_overlapping_charges_both_succeed :
    orderFetchMiddleware (memory "") raceStore "o1" = .ok raceOrder ∧
    (chargeOrder (memory "") svcOK ⟨"t1"⟩ raceOrder raceStore).1 =
      .ok ⟨2000⟩ ∧
    (chargeOrder (memory "") svcOK ⟨"t1"⟩ raceOrder raceStore).2.2 =
      [⟨"t1", 2000⟩] ∧
    (chargeOrder (memory "") svcOK ⟨"t2"⟩ raceOrder
        (chargeOrder (memory "") svcOK ⟨"t1"⟩ raceOrder raceStore).2.1).1 =
      .ok ⟨2000⟩ ∧
    (chargeOrder (memory "") svcOK ⟨"t2"⟩ raceOrder
        (chargeOrder (memory "") svcOK ⟨"t1"⟩ raceOrder raceStore).2.1).2.2 =
      [⟨"t2", 2000⟩] ∧
    Store.find (chargeOrder (memory "") svcOK ⟨"t2"⟩ raceOrder
        (chargeOrder (memory "") svcOK ⟨"t1"⟩ raceOrder raceStore).2.1).2.1
        "o1" =
      some { raceOrder with status := OrderStatusCharged } := by
  decide

end OrderUp
